import Mathlib

/-!
Shallow embedding of the Jolt codec from `neo4j/jolt/encoding.py` and
`neo4j/jolt/decoding.py`, together with the data model the codec operates on.
Python values are modelled by the inductive `Jolt.Value`; the JSON documents
exchanged on the wire are modelled by the AST `Jolt.Json` (the textual layer
of the standard-library `json` module is modelled by `Jolt.dumps`).
IEEE-754 doubles are modelled by `Jolt.PyFloat`: NaN, signed infinities, and
finite values represented by the exact rational they denote.
-/

set_option maxRecDepth 16384

namespace Jolt

/-- Model of a Python `float` (IEEE-754 binary64).  A finite double denotes an
exact (dyadic) rational; the model carries that rational.  `nan` is a single
NaN value (no claim in this development distinguishes NaN payloads). -/
inductive PyFloat where
  | nan : PyFloat
  | inf (pos : Bool) : PyFloat
  | finite (q : ℚ) : PyFloat
deriving DecidableEq, Repr

/-- Constant `Z_LO` from `encoding.py`: lower bound of the safe band, `-(2 ** 31)`. -/
def Z_LO : Int := -(2 ^ 31)

/-- Constant `Z_HI` from `encoding.py`: upper bound of the safe band, `(2 ** 31) - 1`. -/
def Z_HI : Int := 2 ^ 31 - 1

/-- Number of times `p` divides `n` (fuel-driven; call with `fuel = n`). -/
def multiplicityOf (p : Nat) : Nat → Nat → Nat
  | 0, _ => 0
  | fuel + 1, n => if 2 ≤ p ∧ 0 < n ∧ n % p = 0 then multiplicityOf p fuel (n / p) + 1 else 0

/-- Decimal rendering of a finite double, modelling Python `repr(float)`.
For an integral double Python prints `<digits>.0` (within the magnitudes the
encoder leaves bare or wraps, i.e. below 1e16 where Python switches to
exponent notation).  For a fractional double Python prints the shortest
decimal string that reads back as the same double; in this model, where a
finite double is the exact rational it denotes, that is the exact (finite)
decimal expansion of the rational.  Every IEEE double is a dyadic rational,
so its reduced denominator is a power of two and the expansion terminates;
the final fallback branch is never reached by a value denoting a double. -/
def ratDecimalRepr (q : ℚ) : String :=
  if q.den = 1 then toString q.num ++ ".0"
  else
    let a := multiplicityOf 2 q.den q.den
    let b := multiplicityOf 5 q.den q.den
    if q.den = 2 ^ a * 5 ^ b then
      let k := max a b
      let m : Int := q.num * ((10 ^ k : Int) / (q.den : Int))
      let digits := toString m.natAbs
      let padded := String.mk (List.replicate (k + 1 - digits.length) '0') ++ digits
      (if q.num < 0 then "-" else "") ++
        padded.take (padded.length - k) ++ "." ++ padded.drop (padded.length - k)
    else toString q.num ++ "/" ++ toString q.den

/-- Python `repr` of a float.  The non-finite spellings are never emitted by
the Jolt encoder (non-finite floats are always wrapped in the `R` sigil). -/
def pyFloatRepr : PyFloat → String
  | .nan => "nan"
  | .inf true => "inf"
  | .inf false => "-inf"
  | .finite q => ratDecimalRepr q

/-- JSON document AST.  A JSON number literal without `.`/`e`/`E` is an
`int`; any other number literal is a `float` (this is how Python's `json`
module parses numbers, per the spec §4.4). -/
inductive Json where
  | null : Json
  | bool (b : Bool) : Json
  | int (n : Int) : Json
  | float (f : PyFloat) : Json
  | str (s : String) : Json
  | arr (elems : List Json) : Json
  | obj (entries : List (String × Json)) : Json
deriving Repr

/-- The two-character string holding an opening and a closing curly brace:
the map-disambiguation sigil. -/
def curlySigil : String := "\x7b\x7d"

def hexUpperDigit (n : Nat) : Char :=
  if n < 10 then Char.ofNat ('0'.toNat + n) else Char.ofNat ('A'.toNat + n - 10)

def hexLowerDigit (n : Nat) : Char :=
  if n < 10 then Char.ofNat ('0'.toNat + n) else Char.ofNat ('a'.toNat + n - 10)

/-- Formatting `"%02X" % b` for a byte, as used by `jolt_byte_array`. -/
def byteHexUpper (b : Nat) : String :=
  String.mk [hexUpperDigit (b / 16 % 16), hexUpperDigit (b % 16)]

/-- The join `"".join("%02X" % b for b in o)` from `jolt_byte_array`. -/
def bytesHexUpper (bs : List Nat) : String := String.join (bs.map byteHexUpper)

/-- The 4-digit `\uXXXX` escape used by `json.dumps` (`ensure_ascii` default). -/
def uEscape (n : Nat) : String :=
  "\\u" ++ String.mk [hexLowerDigit (n / 4096 % 16), hexLowerDigit (n / 256 % 16),
    hexLowerDigit (n / 16 % 16), hexLowerDigit (n % 16)]

/-- Escaping of one character in a JSON string literal, as `json.dumps`
performs with its default `ensure_ascii=True`. -/
def escapeChar (c : Char) : String :=
  if c = '"' then "\\\""
  else if c = '\\' then "\\\\"
  else if c = '\n' then "\\n"
  else if c = '\t' then "\\t"
  else if c = '\r' then "\\r"
  else if c.toNat = 8 then "\\b"
  else if c.toNat = 12 then "\\f"
  else if c.toNat < 32 then uEscape c.toNat
  else if c.toNat < 128 then String.singleton c
  else if c.toNat < 65536 then uEscape c.toNat
  else
    let m := c.toNat - 65536
    uEscape (55296 + m / 1024) ++ uEscape (56320 + m % 1024)

def escapeString (s : String) : String := String.join (s.data.map escapeChar)

/-- A JSON string literal: quotes around the escaped content. -/
def quoteJson (s : String) : String := "\"" ++ escapeString s ++ "\""

mutual

/-- Serialization of the JSON AST to text, modelling `json.dumps` with its
default separators `", "` and `": "` (the serializer the encoder inherits
from `JSONEncoder.encode`). -/
def dumps : Json → String
  | .null => "null"
  | .bool true => "true"
  | .bool false => "false"
  | .int n => toString n
  | .float f => pyFloatRepr f
  | .str s => quoteJson s
  | .arr xs => "[" ++ dumpsArr xs ++ "]"
  | .obj kvs => "\x7b" ++ dumpsObj kvs ++ "\x7d"

def dumpsArr : List Json → String
  | [] => ""
  | [x] => dumps x
  | x :: y :: rest => dumps x ++ ", " ++ dumpsArr (y :: rest)

def dumpsObj : List (String × Json) → String
  | [] => ""
  | [(k, v)] => quoteJson k ++ ": " ++ dumps v
  | (k, v) :: e :: rest => quoteJson k ++ ": " ++ dumps v ++ ", " ++ dumpsObj (e :: rest)

end

/-- Kind of a temporal value (`Date` / `Time` / `DateTime` / `Duration`). -/
inductive TemporalKind where
  | date : TemporalKind
  | time : TemporalKind
  | dateTime : TemporalKind
  | duration : TemporalKind
deriving DecidableEq, Repr

mutual

/-- The Jolt value sum (spec §3.1): the Python values the codec operates on.
A temporal value is modelled by its kind and its ISO-8601 string (the
`isoformat()` output the encoder serializes, the `from_iso_format` input the
decoder parses); a bytearray by its list of octets; a point by its SRID and
coordinate doubles.  Map entries keep insertion order. -/
inductive Value where
  | null : Value
  | bool (b : Bool) : Value
  | int (n : Int) : Value
  | float (f : PyFloat) : Value
  | str (s : String) : Value
  | bytes (bs : List Nat) : Value
  | list (xs : List Value) : Value
  | map (kvs : List (String × Value)) : Value
  | point (srid : Int) (coords : List PyFloat) : Value
  | temporal (kind : TemporalKind) (iso : String) : Value
  | node (n : NodeV) : Value
  | rel (r : RelV) : Value
  | path (p : PathV) : Value

/-- Modelled from the spec (§3.1): a Node record
`{id: Int, labels: List<String>, properties: Map}`;
`neo4j.types.graph` is not under `src/`. -/
inductive NodeV where
  | mk (id : Int) (labels : List String) (props : List (String × Value)) : NodeV

/-- Modelled from the spec (§3.1): a Relationship record with id, type,
properties and its two endpoint nodes (`start_node` / `end_node` in the
source are full node objects). -/
inductive RelV where
  | mk (id : Int) (rtype : String) (props : List (String × Value))
      (startN endN : NodeV) : RelV

/-- Modelled from the spec (§3.1): a Path is a start node followed by one or
more relationships (`Path(a, *relationships)` in the tests; the node list is
derived by walking the relationships). -/
inductive PathV where
  | mk (startN : NodeV) (relationships : List RelV) : PathV

end

def NodeV.id : NodeV → Int
  | .mk i _ _ => i

def NodeV.labels : NodeV → List String
  | .mk _ ls _ => ls

def NodeV.props : NodeV → List (String × Value)
  | .mk _ _ ps => ps

def RelV.id : RelV → Int
  | .mk i _ _ _ _ => i

def RelV.rtype : RelV → String
  | .mk _ t _ _ _ => t

def RelV.props : RelV → List (String × Value)
  | .mk _ _ ps _ _ => ps

def RelV.startN : RelV → NodeV
  | .mk _ _ _ s _ => s

def RelV.endN : RelV → NodeV
  | .mk _ _ _ _ e => e

def PathV.startN : PathV → NodeV
  | .mk s _ => s

def PathV.relationships : PathV → List RelV
  | .mk _ rs => rs

/-- Modelled from the spec: equality of nodes, as used by
`r.start_node == last_node` in `jolt_path`.  §3.2 requires elements of equal
id to compare equal on all fields, so within a single graph node equality is
determined by the id (the upstream driver's `Entity.__eq__` likewise compares
the owning graph and the id). -/
def NodeV.eqv (a b : NodeV) : Bool := a.id == b.id

/-- Python `dict.update({k: v})` on an insertion-ordered dictionary
represented as an association list: overwrite in place if the key is
present, else append. -/
def tableUpdate {α : Type} (t : List (String × α)) (k : String) (v : α) :
    List (String × α) :=
  if t.any (fun kv => kv.1 == k) then
    t.map (fun kv => if kv.1 == k then (k, v) else kv)
  else t ++ [(k, v)]

/-- Function `jolt_int` from `encoding.py`: wrap in the `Z` sigil when `always_safe`
is set or the integer lies outside the safe band `[Z_LO, Z_HI]`. -/
def jolt_int (safe : Bool) (n : Int) : Json :=
  if safe = true ∨ n < Z_LO ∨ n > Z_HI then .obj [("Z", .str (toString n))]
  else .int n

/-- Function `jolt_float` from `encoding.py`: NaN and the infinities get the `R`
sigil; an integral float inside the safe band gets the `R` sigil with its
`repr` string (`o.is_integer() and Z_LO <= o <= Z_HI`); every other float is
passed through as a bare JSON number. -/
def jolt_float (safe : Bool) : PyFloat → Json
  | .nan => .obj [("R", .str "NaN")]
  | .inf true => .obj [("R", .str "Infinity")]
  | .inf false => .obj [("R", .str "-Infinity")]
  | .finite q =>
    if safe = true ∨ (q.den = 1 ∧ (Z_LO : ℚ) ≤ q ∧ q ≤ (Z_HI : ℚ)) then
      .obj [("R", .str (ratDecimalRepr q))]
    else .float (.finite q)

mutual

/-- Function `jolt` from `encoding.py`, combined with the `default` hook that
`JSONEncoder.encode` invokes on objects plain JSON cannot serialize
(bytearrays, graph elements, temporals): the total transformation from a
Value to its sigil-tagged JSON form.  Strings, booleans and null pass
through unchanged.  The map case is `jolt_dict`, the node entry is
`jolt_raw_node_2`, the relationship entry is the list built inline by
`jolt_relationship`; they are restated as standalone definitions after this
block. -/
def jolt (safe : Bool) : Value → Json
  | .null => .null
  | .bool b => .bool b
  | .int n => jolt_int safe n
  | .float f => jolt_float safe f
  | .str s => .str s
  | .bytes bs => .obj [("#", .str (bytesHexUpper bs))]
  | .list xs => .arr (jolt_list safe xs)
  | .map kvs =>
    if safe = true ∨ kvs.length = 1 then
      .obj [(curlySigil, .obj (jolt_raw_dict safe kvs))]
    else .obj (jolt_raw_dict safe kvs)
  | .point srid coords =>
    .obj [("@" ++ toString srid, .obj [("POINT", .arr (coords.map Json.float))])]
  | .temporal _ iso => .obj [("T", .str iso)]
  | .node (.mk i labels props) =>
    .obj [("G", .obj [(toString i,
      .arr [.arr (labels.map Json.str), .obj (jolt_raw_dict safe props)])])]
  | .rel (.mk i t props s e) =>
    .obj [("G", .obj [(toString i,
      .arr [.str t, .obj (jolt_raw_dict safe props), .str (toString s.id),
        .str (toString e.id)])])]
  | .path (.mk (.mk vi vl vp) rels) =>
    jolt_path_go safe rels (.mk vi vl vp)
      [(toString vi, .arr [.arr (vl.map Json.str), .obj (jolt_raw_dict safe vp)])]
      [] [Json.str (toString vi)]

/-- Function `jolt_list`: map `jolt` over the elements. -/
def jolt_list (safe : Bool) : List Value → List Json
  | [] => []
  | x :: xs => jolt safe x :: jolt_list safe xs

/-- Function `jolt_raw_dict`: stringified keys, `jolt`-transformed values, order
preserved, no `{}` wrapping. -/
def jolt_raw_dict (safe : Bool) : List (String × Value) → List (String × Json)
  | [] => []
  | (k, v) :: rest => (k, jolt safe v) :: jolt_raw_dict safe rest

/-- The loop of `jolt_path`: walk the relationships updating the previous
node (`r.end_node` if the previous node equals `r.start_node`, else
`r.start_node`), accumulating the node table, the relationship table and the
traversal sequence. -/
def jolt_path_go (safe : Bool) :
    List RelV → NodeV → List (String × Json) → List (String × Json) →
    List Json → Json
  | [], _, nodes, relTab, seq =>
    .obj [("G", .arr [.obj nodes, .obj relTab, .arr seq])]
  | .mk i t props (.mk si sl sp) (.mk ei el ep) :: rest, last, nodes, relTab, seq =>
    if NodeV.eqv (.mk si sl sp) last then
      jolt_path_go safe rest (.mk ei el ep)
        (tableUpdate nodes (toString ei)
          (.arr [.arr (el.map Json.str), .obj (jolt_raw_dict safe ep)]))
        (tableUpdate relTab (toString i)
          (.arr [.str t, .obj (jolt_raw_dict safe props), .str (toString si),
            .str (toString ei)]))
        (seq ++ [Json.str (toString i)])
    else
      jolt_path_go safe rest (.mk si sl sp)
        (tableUpdate nodes (toString si)
          (.arr [.arr (sl.map Json.str), .obj (jolt_raw_dict safe sp)]))
        (tableUpdate relTab (toString i)
          (.arr [.str t, .obj (jolt_raw_dict safe props), .str (toString si),
            .str (toString ei)]))
        (seq ++ [Json.str (toString i)])

end

/-- Function `jolt_dict` from `encoding.py` (the `.map` case of `jolt`): a map of
size exactly one (or any map under `always_safe`) is wrapped in the `{}`
sigil; otherwise it is emitted as a plain object. -/
def jolt_dict (safe : Bool) (kvs : List (String × Value)) : Json :=
  if safe = true ∨ kvs.length = 1 then
    .obj [(curlySigil, .obj (jolt_raw_dict safe kvs))]
  else .obj (jolt_raw_dict safe kvs)

/-- Function `jolt_raw_node_2` from `encoding.py`: the element-table entry of a node,
`{str(o.id): [labels, properties]}` (labels are strings, so `jolt_list` on
them is `Json.str` on each). -/
def jolt_raw_node_2 (safe : Bool) : NodeV → String × Json
  | .mk i labels props =>
    (toString i, .arr [.arr (labels.map Json.str), .obj (jolt_raw_dict safe props)])

/-- The element-table entry of a relationship as built inline by
`jolt_relationship` and `jolt_path`:
`[str(type(o).__name__), properties, str(start_id), str(end_id)]`. -/
def jolt_rel_entry (safe : Bool) : RelV → Json
  | .mk _ t props s e =>
    .arr [.str t, .obj (jolt_raw_dict safe props), .str (toString s.id),
      .str (toString e.id)]

/-- Function `jolt_dumps` (module-level helper used throughout `test_jolt.py`):
transform then serialize. -/
def jolt_dumps (safe : Bool) (v : Value) : String := dumps (jolt safe v)

/-- Node `a` of the fixture in `JoltGraphTypeEncodingTestCase.setUp`. -/
def nodeAlice : NodeV := .mk 1 ["Person"] [("name", .str "Alice")]

/-- Node `b` of the test fixture (with a temporal property). -/
def nodeBob : NodeV :=
  .mk 2 ["Person"] [("name", .str "Bob"), ("date_of_birth", .temporal .date "1970-01-01")]

/-- Node `c` of the test fixture. -/
def nodeCarol : NodeV := .mk 3 ["Person"] [("name", .str "Carol")]

/-- Node `d` of the test fixture. -/
def nodeDave : NodeV := .mk 4 ["Person"] [("name", .str "Dave")]

/-- Relationship `ab` of the test fixture. -/
def relAB : RelV := .mk 7 "KNOWS" [("since", .int 1999)] nodeAlice nodeBob

/-- Relationship `cb` of the test fixture (traversed against its
direction). -/
def relCB : RelV := .mk 8 "KNOWS" [] nodeCarol nodeBob

/-- Relationship `cd` of the test fixture. -/
def relCD : RelV := .mk 9 "KNOWS" [] nodeCarol nodeDave

/-- The path `Path(a, ab, cb, cd)` of the test fixture. -/
def pathFixture : PathV := .mk nodeAlice [relAB, relCB, relCD]

/-! ## Decoder (`decoding.py`)

Decoding drives a JSON parse with `_object_hook`, which is invoked bottom-up
on every JSON object after its entries have been decoded.  Python exceptions
escaping the hook abort the decode; they are modelled by `Except PyErr`. -/

/-- The Python exceptions that can escape `JoltDecoder`'s hooks.
`JoltDecodeError` is the error class raised deliberately by the decoder;
the remaining constructors are builtin exceptions raised by the library
calls the hooks make (`int`, `float`, `dict`, attribute access). -/
inductive PyErr where
  | joltDecodeError : PyErr
  | valueError : PyErr
  | typeError : PyErr
  | attributeError : PyErr
  | overflowError : PyErr
deriving DecidableEq, Repr

/-- ASCII decimal digit (codes 48–57). -/
def isAsciiDigit (c : Char) : Bool := 48 ≤ c.toNat && c.toNat ≤ 57

/-- Hexadecimal digit of either case (codes 48–57, 97–102, 65–70). -/
def isHexDigitCh (c : Char) : Bool :=
  isAsciiDigit c || (97 ≤ c.toNat && c.toNat ≤ 102) || (65 ≤ c.toNat && c.toNat ≤ 70)

def decVal (c : Char) : Nat := c.toNat - 48

def hexVal (c : Char) : Nat :=
  if isAsciiDigit c then c.toNat - 48
  else if 97 ≤ c.toNat && c.toNat ≤ 102 then c.toNat - 97 + 10
  else c.toNat - 65 + 10

/-- ASCII whitespace stripped by Python's `int()` and `float()` string
conversion: space, tab, newline, carriage return, vertical tab, form feed
(the model restricts Python's Unicode whitespace to ASCII; no claim
exercises non-ASCII whitespace). -/
def isPySpace (c : Char) : Bool :=
  c.toNat = 32 || c.toNat = 9 || c.toNat = 10 || c.toNat = 13 ||
    c.toNat = 11 || c.toNat = 12

def stripPySpace (cs : List Char) : List Char :=
  ((cs.dropWhile isPySpace).reverse.dropWhile isPySpace).reverse

/-- Continuation of a digit run for Python `int(s, base)`: further digits,
with single underscores permitted between digits. -/
def digitRunGo (isD : Char → Bool) (dval : Char → Nat) (b : Nat) :
    Nat → List Char → Option Nat
  | acc, [] => some acc
  | acc, c :: rest =>
    if c = '_' then
      match rest with
      | c2 :: rest2 =>
        if isD c2 then digitRunGo isD dval b (acc * b + dval c2) rest2 else none
      | [] => none
    else if isD c then digitRunGo isD dval b (acc * b + dval c) rest else none

/-- A non-empty digit run (underscores permitted between digits), the digit
grammar of Python's `int(s, base)`. -/
def digitRun (isD : Char → Bool) (dval : Char → Nat) (b : Nat) :
    List Char → Option Nat
  | [] => none
  | c :: rest => if isD c then digitRunGo isD dval b (dval c) rest else none

/-- The unsigned part of Python `int(s, 16)`: an optional `0x`/`0X` prefix
(optionally followed by one underscore) and then hex digits. -/
def pyHexDigits (cs : List Char) : Option Nat :=
  if cs.take 2 = ['0', 'x'] ∨ cs.take 2 = ['0', 'X'] then
    if (cs.drop 2).take 1 = ['_'] then digitRun isHexDigitCh hexVal 16 (cs.drop 3)
    else digitRun isHexDigitCh hexVal 16 (cs.drop 2)
  else digitRun isHexDigitCh hexVal 16 cs

/-- Python `int(s, 16)` on a character list: surrounding whitespace and an
optional single sign are tolerated; `none` models `ValueError`. -/
def pyIntLit16 (cs : List Char) : Option Int :=
  let t := stripPySpace cs
  if t.take 1 = ['+'] then (pyHexDigits (t.drop 1)).map (fun n => (n : Int))
  else if t.take 1 = ['-'] then (pyHexDigits (t.drop 1)).map (fun n => -(n : Int))
  else (pyHexDigits t).map (fun n => (n : Int))

/-- Python `int(s)` (base 10) on a character list. -/
def pyIntLit10 (cs : List Char) : Option Int :=
  let t := stripPySpace cs
  if t.take 1 = ['+'] then
    (digitRun isAsciiDigit decVal 10 (t.drop 1)).map (fun n => (n : Int))
  else if t.take 1 = ['-'] then
    (digitRun isAsciiDigit decVal 10 (t.drop 1)).map (fun n => -(n : Int))
  else (digitRun isAsciiDigit decVal 10 t).map (fun n => (n : Int))

def asciiLower (c : Char) : Char :=
  if 'A' ≤ c && c ≤ 'Z' then Char.ofNat (c.toNat + 32) else c

def digitsToNat (dval : Char → Nat) (b : Nat) (cs : List Char) : Nat :=
  cs.foldl (fun acc c => acc * b + dval c) 0

/-- The decimal mantissa-and-exponent grammar of Python `float(s)` (after
sign stripping): `digits [. digits] [e|E [sign] digits]` with at least one
mantissa digit.  (Underscores between digits, which Python also accepts,
are not modelled; no claim exercises them.)  The denoted rational
`N·10^k / 10^f` is assembled with `mkRat` from the mantissa digits `N`, the
fraction length `f` and the signed exponent `k`. -/
def parseDecMant (cs : List Char) : Option ℚ :=
  let ip := cs.takeWhile isAsciiDigit
  let rest := cs.dropWhile isAsciiDigit
  let fp := match rest with
    | '.' :: r => r.takeWhile isAsciiDigit
    | _ => []
  let rest2 := match rest with
    | '.' :: r => r.dropWhile isAsciiDigit
    | _ => rest
  if ip.isEmpty && fp.isEmpty then none
  else
    let n := digitsToNat decVal 10 (ip ++ fp)
    let f := fp.length
    match rest2 with
    | [] => some (mkRat n (10 ^ f))
    | e :: r3 =>
      if e = 'e' ∨ e = 'E' then
        match r3 with
        | '+' :: r4 =>
          (digitRun isAsciiDigit decVal 10 r4).map (fun k => mkRat (n * 10 ^ k) (10 ^ f))
        | '-' :: r4 =>
          (digitRun isAsciiDigit decVal 10 r4).map (fun k => mkRat n (10 ^ (f + k)))
        | _ =>
          (digitRun isAsciiDigit decVal 10 r3).map (fun k => mkRat (n * 10 ^ k) (10 ^ f))
      else none

/-- Python `float(s)`: whitespace and sign stripped, then `inf`/`infinity`/
`nan` (case-insensitive) or a decimal literal.  In the rational model the
literal denotes its exact value (Python rounds to the nearest double; the
claims only exercise exactly-representable values). -/
def pyFloatParse (s : String) : Option PyFloat :=
  let core : List Char → Bool → Option PyFloat := fun cs pos =>
    let low := cs.map asciiLower
    if low = ['i', 'n', 'f'] ∨ low = "infinity".data then some (.inf pos)
    else if low = ['n', 'a', 'n'] then some .nan
    else (parseDecMant cs).map (fun q => .finite (if pos then q else -q))
  match stripPySpace s.data with
  | '+' :: rest => core rest true
  | '-' :: rest => core rest false
  | rest => core rest true

/-- Truncation toward zero, the behaviour of Python `int(float)`. -/
def ratTrunc (q : ℚ) : Int := q.num.tdiv q.den

/-- Python `int(v)` as invoked by the `Z` hook on the decoded payload. -/
def pyInt : Value → Except PyErr Int
  | .int n => .ok n
  | .bool b => .ok (if b then 1 else 0)
  | .str s =>
    match pyIntLit10 s.data with
    | some n => .ok n
    | none => .error .valueError
  | .float (.finite q) => .ok (ratTrunc q)
  | .float .nan => .error .valueError
  | .float (.inf _) => .error .overflowError
  | _ => .error .typeError

/-- Python `float(v)` as invoked by the `R` hook on the decoded payload. -/
def pyFloat_of : Value → Except PyErr PyFloat
  | .float f => .ok f
  | .int n => .ok (.finite (n : ℚ))
  | .bool b => .ok (.finite (if b then 1 else 0))
  | .str s =>
    match pyFloatParse s with
    | some f => .ok f
    | none => .error .valueError
  | _ => .error .typeError

/-- Fold that models insertion into a Python `dict`: later bindings of an
existing key overwrite in place. -/
def dedupEntries (kvs : List (String × Value)) : List (String × Value) :=
  kvs.foldl (fun t kv => tableUpdate t kv.1 kv.2) []

def pairOfValue : Value → Option (String × Value)
  | .list [.str k, v] => some (k, v)
  | _ => none

/-- Python `dict(v)` as invoked by the `{}` hook on the decoded payload: a
mapping is copied; an empty sequence gives an empty dict; a sequence of
two-element sequences (with keys representable as strings) is folded in;
a non-iterable raises `TypeError`, an iterable of non-pairs `ValueError`. -/
def pyDict : Value → Except PyErr (List (String × Value))
  | .map kvs => .ok kvs
  | .str s => if s.data = [] then .ok [] else .error .valueError
  | .bytes bs => if bs = [] then .ok [] else .error .valueError
  | .list xs =>
    match xs.mapM pairOfValue with
    | some pairs => .ok (dedupEntries pairs)
    | none => .error .valueError
  | _ => .error .typeError

/-- Modelled from the spec (§4.4.1 / §4.3.1): the neotime Date ISO pattern
`YYYY-MM-DD` (`neotime` is an external dependency, not under `src/`). -/
def matchDateIso : List Char → Bool
  | [y1, y2, y3, y4, '-', m1, m2, '-', d1, d2] =>
    [y1, y2, y3, y4, m1, m2, d1, d2].all isAsciiDigit
  | _ => false

/-- Modelled from the spec: an optional `±HH:MM` offset closing a Time. -/
def matchTz : List Char → Bool
  | [] => true
  | [sgn, h1, h2, ':', m1, m2] =>
    (sgn = '+' || sgn = '-') && [h1, h2, m1, m2].all isAsciiDigit
  | _ => false

/-- Modelled from the spec: optional fractional seconds, then the optional
offset. -/
def matchFracTz : List Char → Bool
  | '.' :: rest =>
    !(rest.takeWhile isAsciiDigit).isEmpty && matchTz (rest.dropWhile isAsciiDigit)
  | rest => matchTz rest

/-- Modelled from the spec: the Time ISO pattern
`HH:MM:SS[.fffffffff][±HH:MM]`. -/
def matchTimeIso : List Char → Bool
  | h1 :: h2 :: ':' :: m1 :: m2 :: ':' :: s1 :: s2 :: rest =>
    [h1, h2, m1, m2, s1, s2].all isAsciiDigit && matchFracTz rest
  | _ => false

/-- Modelled from the spec: the DateTime pattern that `decoding.py` builds
by concatenating the date pattern (anchor dropped), one arbitrary separator
character, and the time pattern. -/
def matchDateTimeIso : List Char → Bool
  | y1 :: y2 :: y3 :: y4 :: '-' :: m1 :: m2 :: '-' :: d1 :: d2 :: _sep :: rest =>
    [y1, y2, y3, y4, m1, m2, d1, d2].all isAsciiDigit && matchTimeIso rest
  | _ => false

/-- Modelled from the spec: a loose ISO-8601 duration shape, `P` followed by
digits and designator letters. -/
def matchDurationIso : List Char → Bool
  | 'P' :: rest =>
    !rest.isEmpty &&
      rest.all (fun c =>
        isAsciiDigit c || ['Y', 'M', 'W', 'D', 'T', 'H', 'S', '.', ','].contains c)
  | _ => false

/-- Hook `_temporal_hook`: match the payload against the Date, Time, DateTime and
Duration patterns in that order; produce the first match, else raise
`JoltDecodeError`.  (`from_iso_format` is modelled by retaining the matched
string together with its kind.) -/
def temporal_hook : Value → Except PyErr Value
  | .str s =>
    if matchDateIso s.data then .ok (.temporal .date s)
    else if matchTimeIso s.data then .ok (.temporal .time s)
    else if matchDateTimeIso s.data then .ok (.temporal .dateTime s)
    else if matchDurationIso s.data then .ok (.temporal .duration s)
    else .error .joltDecodeError
  | _ => .error .typeError

/-- Modelled from the spec (§3.1): `hydrate_point(srid, *coordinates)` from
`neo4j.types.spatial` (not under `src/`) builds a Point with the given SRID
from 2 or 3 coordinates, converting each to float; unpacking a non-iterable
payload raises `TypeError`. -/
def hydrate_point (srid : Int) : Value → Except PyErr Value
  | .list xs =>
    match xs.mapM pyFloat_of with
    | .ok fs =>
      if fs.length = 2 ∨ fs.length = 3 then .ok (.point srid fs)
      else .error .valueError
    | .error e => .error e
  | .point _ cs =>
    if cs.length = 2 ∨ cs.length = 3 then .ok (.point srid cs)
    else .error .valueError
  | _ => .error .typeError

/-- Hook `_spatial_hook`: take the first entry of the payload's `items()`; an
empty mapping raises `IndexError`, which the hook converts to
`JoltDecodeError`; a non-mapping payload has no `.items` and raises
`AttributeError`, which `except (IndexError, KeyError)` does not catch; a
first key other than `"POINT"` raises `JoltDecodeError`. -/
def spatial_hook (srid : Int) : Value → Except PyErr Value
  | .map [] => .error .joltDecodeError
  | .map ((k, v) :: _) =>
    if k = "POINT" then hydrate_point srid v else .error .joltDecodeError
  | _ => .error .attributeError

/-- The 2-character slices `v[x:(x+2)] for x in range(0, len(v), 2)` taken
by the `#` hook; a final odd slice has a single character. -/
def sliceChunks : List Char → List (List Char)
  | [] => []
  | [c] => [[c]]
  | a :: b :: rest => [a, b] :: sliceChunks rest

/-- The `#` hook:
`bytearray(int(v[x:(x + 2)], 16) for x in range(0, len(v), 2))`.
Each slice goes through `int(·, 16)` (`ValueError` on failure) and
`bytearray` requires every resulting value to lie in `range(0, 256)`
(`ValueError` otherwise). -/
def hash_hook : Value → Except PyErr Value
  | .str s =>
    match (sliceChunks s.data).mapM pyIntLit16 with
    | none => .error .valueError
    | some ns =>
      if ns.all (fun n => decide (0 ≤ n ∧ n < 256)) then
        .ok (.bytes (ns.map Int.toNat))
      else .error .valueError
  | _ => .error .typeError

def isMappingV : Value → Bool
  | .map _ => true
  | _ => false

/-- Python `collections.Sequence` membership over the value sum: lists,
strings, bytearrays and points (tuples) register as sequences. -/
def isSequenceV : Value → Bool
  | .list _ => true
  | .str _ => true
  | .bytes _ => true
  | .point _ _ => true
  | _ => false

/-- Hook `_graph_hook`: lazily creates the per-parse `Graph`, then merely
dispatches on the payload's shape — both the mapping branch (single
element) and the sequence branch (subgraph/path) are `pass`, so the hook
falls off the end and returns `None`; any other payload raises
`JoltDecodeError`.  The created `Graph` is never populated nor read, so the
model keeps only the returned value. -/
def graph_hook (g : Value) : Except PyErr Value :=
  if isMappingV g then .ok .null
  else if isSequenceV g then .ok .null
  else .error .joltDecodeError

/-- Hook `_object_hook` from `decoding.py`: a one-entry object dispatches on its
key (`Z`, `R`, `T`, a key starting with `@`, `#`, `{}`, `G`, in that
order); any other object is left as a plain map.  For an `@` key,
`int(k[1:])` raises `ValueError` on non-digits, which the hook's
`except TypeError` does not catch. -/
def object_hook (o : List (String × Value)) : Except PyErr Value :=
  match o with
  | [(k, v)] =>
    if k = "Z" then
      match pyInt v with
      | .ok n => .ok (.int n)
      | .error e => .error e
    else if k = "R" then
      match pyFloat_of v with
      | .ok f => .ok (.float f)
      | .error e => .error e
    else if k = "T" then temporal_hook v
    else match k.data with
    | '@' :: sridChars =>
      match pyIntLit10 sridChars with
      | some srid => spatial_hook srid v
      | none => .error .valueError
    | _ =>
    if k = "#" then hash_hook v
    else if k = curlySigil then
      match pyDict v with
      | .ok kvs => .ok (.map kvs)
      | .error e => .error e
    else if k = "G" then graph_hook v
    else .ok (.map o)
  | _ => .ok (.map o)

mutual

/-- The decode pipeline `jolt_loads`: the `json` module parses the document
and invokes `_object_hook` bottom-up on every object (duplicate keys having
been collapsed into the dict the hook receives). -/
def decodeJson : Json → Except PyErr Value
  | .null => .ok .null
  | .bool b => .ok (.bool b)
  | .int n => .ok (.int n)
  | .float f => .ok (.float f)
  | .str s => .ok (.str s)
  | .arr xs =>
    match decodeArr xs with
    | .ok vs => .ok (.list vs)
    | .error e => .error e
  | .obj kvs =>
    match decodeEntries kvs with
    | .ok kvs2 => object_hook (dedupEntries kvs2)
    | .error e => .error e

def decodeArr : List Json → Except PyErr (List Value)
  | [] => .ok []
  | x :: xs =>
    match decodeJson x with
    | .ok v =>
      match decodeArr xs with
      | .ok vs => .ok (v :: vs)
      | .error e => .error e
    | .error e => .error e

def decodeEntries : List (String × Json) → Except PyErr (List (String × Value))
  | [] => .ok []
  | (k, v) :: rest =>
    match decodeJson v with
    | .ok v2 =>
      match decodeEntries rest with
      | .ok rest2 => .ok ((k, v2) :: rest2)
      | .error e => .error e
    | .error e => .error e

end

/-! ### C4: path encoding -/

/-- The claim's node walk: after each relationship, the current node is the
relationship's end node when the previous node equals its start node, else
its start node. -/
def path_walk : NodeV → List RelV → List NodeV
  | _, [] => []
  | v, r :: rest =>
    let v2 := if NodeV.eqv r.startN v then r.endN else r.startN
    v2 :: path_walk v2 rest

/-- Every node position of a path: the start node followed by the walk. -/
def path_node_seq (v0 : NodeV) (rels : List RelV) : List NodeV :=
  v0 :: path_walk v0 rels

/-- The claim's SEQ: the stringified start-node id followed by the
stringified relationship ids, in order. -/
def seq_list (v0 : NodeV) (rels : List RelV) : List Json :=
  Json.str (toString v0.id) :: rels.map (fun r => Json.str (toString r.id))

/-- The claim's NODES: the element table over every node encountered on the
walk, keyed by stringified id. -/
def nodes_table (v0 : NodeV) (rels : List RelV) : List (String × Json) :=
  (path_node_seq v0 rels).foldl
    (fun t n => tableUpdate t (jolt_raw_node_2 false n).1 (jolt_raw_node_2 false n).2) []

/-- The claim's RELS: the element table over the relationships, keyed by
stringified id. -/
def rels_table (rels : List RelV) : List (String × Json) :=
  rels.foldl (fun t r => tableUpdate t (toString r.id) (jolt_rel_entry false r)) []

/-! ### C7: the `#` (bytes) sigil -/

/-- The claim's reading of a hex payload: consecutive pairs of hex digits,
a trailing lone digit (odd length) standing for its own value. -/
def hexPairBytes : List Char → List Nat
  | [] => []
  | [c] => [hexVal c]
  | a :: b :: rest => (hexVal a * 16 + hexVal b) :: hexPairBytes rest

/-! ## Evaluation checks (the repository test suite expectations) -/

example : dumps (.obj [("Z", .str "2147483648")]) = "\x7b\"Z\": \"2147483648\"\x7d" := by rfl

example : ratDecimalRepr 1 = "1.0" := by rfl

example : ratDecimalRepr (mkRat 3 2) = "1.5" := by rfl

example : ratDecimalRepr (mkRat (-1) 10) = "-0.1" := by rfl

example : bytesHexUpper [15, 16, 17] = "0F1011" := by rfl

example : jolt_dumps false (.int 2147483647) = "2147483647" := by rfl

example : jolt_dumps false (.int 2147483648) = "\x7b\"Z\": \"2147483648\"\x7d" := by rfl

example : jolt_dumps false (.float (.finite 1)) = "\x7b\"R\": \"1.0\"\x7d" := by rfl

example : jolt_dumps false (.float (.finite (mkRat 3 2))) = "1.5" := by rfl

example : jolt_dumps false (.float (.finite 2147483648)) = "2147483648.0" := by rfl

example : jolt_dumps false (.bytes [15, 16, 17]) = "\x7b\"#\": \"0F1011\"\x7d" := by rfl

example : jolt_dumps false (.map [("one", .int 1)]) =
    "\x7b\"\x7b\x7d\": \x7b\"one\": 1\x7d\x7d" := by rfl

example : jolt_dumps false (.map [("one", .int 1), ("two", .int 2)]) =
    "\x7b\"one\": 1, \"two\": 2\x7d" := by rfl

example : jolt_dumps false (.temporal .date "2016-06-23") =
    "\x7b\"T\": \"2016-06-23\"\x7d" := by rfl

example : jolt_dumps false (.point 4326 [.finite (mkRat 617 50), .finite (mkRat 2839 50)]) =
    "\x7b\"@4326\": \x7b\"POINT\": [12.34, 56.78]\x7d\x7d" := by rfl

example : jolt_dumps false (.node (.mk 1 ["Person"] [("name", .str "Alice")])) =
    "\x7b\"G\": \x7b\"1\": [[\"Person\"], \x7b\"name\": \"Alice\"\x7d]\x7d\x7d" := by rfl

example : jolt_dumps false (.path pathFixture) =
    "\x7b\"G\": [\x7b" ++
    "\"1\": [[\"Person\"], \x7b\"name\": \"Alice\"\x7d], " ++
    "\"2\": [[\"Person\"], \x7b\"name\": \"Bob\", \"date_of_birth\": \x7b\"T\": \"1970-01-01\"\x7d\x7d], " ++
    "\"3\": [[\"Person\"], \x7b\"name\": \"Carol\"\x7d], " ++
    "\"4\": [[\"Person\"], \x7b\"name\": \"Dave\"\x7d]" ++
    "\x7d, \x7b" ++
    "\"7\": [\"KNOWS\", \x7b\"since\": 1999\x7d, \"1\", \"2\"], " ++
    "\"8\": [\"KNOWS\", \x7b\x7d, \"3\", \"2\"], " ++
    "\"9\": [\"KNOWS\", \x7b\x7d, \"3\", \"4\"]" ++
    "\x7d, " ++
    "[\"1\", \"7\", \"8\", \"9\"]" ++
    "]\x7d" := by rfl

example : jolt_dumps false (.rel relCB) =
    "\x7b\"G\": \x7b\"8\": [\"KNOWS\", \x7b\x7d, \"3\", \"2\"]\x7d\x7d" := by rfl

example : decodeJson (.obj [("Z", .str "2147483648")]) = .ok (.int 2147483648) := by rfl

example : decodeJson (.obj [("R", .str "1.0")]) = .ok (.float (.finite 1)) := by rfl

example : decodeJson (.obj [("R", .str "NaN")]) = .ok (.float .nan) := by rfl

example : decodeJson (.obj [("#", .str "0F1011")]) = .ok (.bytes [15, 16, 17]) := by rfl

example : decodeJson (.obj [(curlySigil, .obj [("one", .int 1)])]) =
    .ok (.map [("one", .int 1)]) := by rfl

example : decodeJson (.obj [("T", .str "2016-06-23")]) =
    .ok (.temporal .date "2016-06-23") := by rfl

example : decodeJson (.obj [("T", .str "12:34:56.789123456")]) =
    .ok (.temporal .time "12:34:56.789123456") := by rfl

example :
    decodeJson (.obj [("@4326", .obj [("POINT",
      .arr [.float (.finite (mkRat 617 50)), .float (.finite (mkRat 2839 50))])])]) =
    .ok (.point 4326 [.finite (mkRat 617 50), .finite (mkRat 2839 50)]) := by rfl

example : decodeJson (.obj [("#", .str "0F1")]) = .ok (.bytes [15, 1]) := by rfl

example : decodeJson (.obj [("#", .str "+F")]) = .ok (.bytes [15]) := by rfl

example : decodeJson (.obj [("#", .str "ZZ")]) = .error .valueError := by rfl

example : decodeJson (.obj [("@abc", .int 1)]) = .error .valueError := by rfl

example : decodeJson (.obj [("@4326", .arr [.int 1, .int 2])]) =
    .error .attributeError := by rfl

example : decodeJson (.obj [("()", .int 1)]) = .ok (.map [("()", .int 1)]) := by rfl

example : decodeJson (jolt false (.map [("Z", .int 5)])) = .error .typeError := by rfl

example : decodeJson (jolt false (.node nodeAlice)) = .ok .null := by rfl

/-! ## Supporting lemmas -/

theorem strAppendAssoc (a b c : String) : a ++ b ++ c = a ++ (b ++ c) := by
  apply String.ext
  simp [String.data_append, List.append_assoc]

/-! ## Claims -/

/-- C2: with `always_safe` disabled, an Int `n` is emitted bare exactly when
`-2^31 ≤ n ≤ 2^31 - 1`, and every `n` outside that band is emitted as the
one-entry object mapping `Z` to the decimal string of `n`. -/
theorem C2_int_bare_iff_safe_band (n : Int) :
    (jolt false (.int n) = Json.int n ↔ -(2 ^ 31) ≤ n ∧ n ≤ 2 ^ 31 - 1) ∧
    (n < -(2 ^ 31) ∨ n > 2 ^ 31 - 1 →
      jolt false (.int n) = Json.obj [("Z", Json.str (toString n))]) := by
  have hj : jolt false (.int n) = jolt_int false n := rfl
  rw [hj]
  unfold jolt_int
  have hZlo : Z_LO = -2147483648 := by norm_num [Z_LO]
  have hZhi : Z_HI = 2147483647 := by norm_num [Z_HI]
  have hp1 : (-(2 ^ 31) : Int) = -2147483648 := by norm_num
  have hp2 : ((2 ^ 31 - 1) : Int) = 2147483647 := by norm_num
  rw [hZlo, hZhi, hp1, hp2]
  by_cases hband : (-2147483648 : Int) ≤ n ∧ n ≤ 2147483647
  · rw [if_neg (by rintro (h | h | h); exacts [Bool.noConfusion h, by omega, by omega])]
    exact ⟨by simp [hband], fun hout => False.elim (by omega)⟩
  · rw [if_pos (Or.inr (by omega))]
    exact ⟨⟨fun h => Json.noConfusion h, fun h => absurd h hband⟩, fun _ => rfl⟩

/-- C2 witness: the boundary cases `2^31 - 1` (bare) and `2^31`
(`Z`-wrapped), as in the test suite. -/
theorem C2_int_bare_iff_safe_band_witness :
    jolt false (.int 2147483647) = Json.int 2147483647 ∧
    jolt false (.int 2147483648) = Json.obj [("Z", Json.str "2147483648")] := by
  refine ⟨(C2_int_bare_iff_safe_band 2147483647).1.mpr (by decide), ?_⟩
  have h := (C2_int_bare_iff_safe_band 2147483648).2 (by decide)
  rw [h]; rfl

/-- C3: with `always_safe` disabled, a Float is encoded as
`{"R": "NaN"}` / `{"R": "Infinity"}` / `{"R": "-Infinity"}` when non-finite;
as `{"R": "<repr>"}` when finite, integral and inside the safe band; and as
a bare JSON number otherwise. -/
theorem C3_float_encoding (x : PyFloat) :
    (x = .nan → jolt false (.float x) = Json.obj [("R", Json.str "NaN")]) ∧
    (x = .inf true → jolt false (.float x) = Json.obj [("R", Json.str "Infinity")]) ∧
    (x = .inf false → jolt false (.float x) = Json.obj [("R", Json.str "-Infinity")]) ∧
    (∀ q : ℚ, x = .finite q → q.den = 1 → -(2 ^ 31 : ℚ) ≤ q → q ≤ 2 ^ 31 - 1 →
      jolt false (.float x) = Json.obj [("R", Json.str (pyFloatRepr x))]) ∧
    (∀ q : ℚ, x = .finite q → ¬(q.den = 1 ∧ -(2 ^ 31 : ℚ) ≤ q ∧ q ≤ 2 ^ 31 - 1) →
      jolt false (.float x) = Json.float x) := by
  have hlo : ((Z_LO : Int) : ℚ) = -(2 ^ 31 : ℚ) := by norm_num [Z_LO]
  have hhi : ((Z_HI : Int) : ℚ) = (2 ^ 31 - 1 : ℚ) := by norm_num [Z_HI]
  refine ⟨?_, ?_, ?_, ?_, ?_⟩
  · rintro rfl; rfl
  · rintro rfl; rfl
  · rintro rfl; rfl
  · rintro q rfl hden hqlo hqhi
    show jolt_float false (.finite q) = _
    simp only [jolt_float]
    rw [if_pos (Or.inr ⟨hden, by rw [hlo]; exact hqlo, by rw [hhi]; exact hqhi⟩)]
    rfl
  · rintro q rfl hnot
    show jolt_float false (.finite q) = _
    simp only [jolt_float]
    rw [if_neg]
    rintro (hfalse | ⟨hden, hqlo, hqhi⟩)
    · exact Bool.noConfusion hfalse
    · exact hnot ⟨hden, by rw [hlo] at hqlo; exact hqlo, by rw [hhi] at hqhi; exact hqhi⟩

/-- C3 witness: `1.0` is `R`-wrapped with repr `"1.0"`, `1.5` stays a bare
number, `2147483648.0` (integral but outside the band) stays bare. -/
theorem C3_float_encoding_witness :
    jolt false (.float (.finite 1)) = Json.obj [("R", Json.str "1.0")] ∧
    jolt false (.float (.finite (mkRat 3 2))) = Json.float (.finite (mkRat 3 2)) ∧
    jolt false (.float (.finite 2147483648)) = Json.float (.finite 2147483648) := by
  refine ⟨?_, ?_, ?_⟩
  · have h := (C3_float_encoding (.finite 1)).2.2.2.1 1 rfl (by decide)
      (by norm_num) (by norm_num)
    rw [h]; rfl
  · exact (C3_float_encoding (.finite (mkRat 3 2))).2.2.2.2 (mkRat 3 2) rfl
      (by intro hc; exact absurd hc.1 (by decide))
  · refine (C3_float_encoding (.finite 2147483648)).2.2.2.2 2147483648 rfl ?_
    rintro ⟨-, -, hhi⟩
    norm_num at hhi

/-- The keys of a `jolt_raw_dict` are the keys of the source map, in
order. -/
theorem jolt_raw_dict_keys (safe : Bool) (kvs : List (String × Value)) :
    (jolt_raw_dict safe kvs).map Prod.fst = kvs.map Prod.fst := by
  induction kvs with
  | nil => rfl
  | cons kv rest ih =>
    obtain ⟨k, v⟩ := kv
    simp only [jolt_raw_dict, List.map_cons, ih]

/-- C5: with `always_safe` disabled, a Map of exactly one entry is wrapped
in the `{}` sigil (its serialized form starts with the characters
`{"{}": `), whatever its key; a Map of any other size is a plain JSON
object keeping the same keys in the same order. -/
theorem C5_singleton_map_wrapped (kvs : List (String × Value)) :
    (kvs.length = 1 →
      jolt false (.map kvs) = Json.obj [(curlySigil, Json.obj (jolt_raw_dict false kvs))] ∧
      ∃ rest, jolt_dumps false (.map kvs) = "\x7b\"\x7b\x7d\": " ++ rest) ∧
    (kvs.length ≠ 1 → jolt false (.map kvs) = Json.obj (jolt_raw_dict false kvs)) ∧
    (jolt_raw_dict false kvs).map Prod.fst = kvs.map Prod.fst := by
  have hj : jolt false (.map kvs) = jolt_dict false kvs := rfl
  refine ⟨fun hlen => ?_, fun hlen => ?_, jolt_raw_dict_keys false kvs⟩
  · have hwrap : jolt false (.map kvs) =
        Json.obj [(curlySigil, Json.obj (jolt_raw_dict false kvs))] := by
      rw [hj]; unfold jolt_dict; rw [if_pos (Or.inr hlen)]
    refine ⟨hwrap, ⟨dumps (Json.obj (jolt_raw_dict false kvs)) ++ "\x7d", ?_⟩⟩
    show dumps (jolt false (.map kvs)) = _
    rw [hwrap]
    show "\x7b" ++ (quoteJson curlySigil ++ ": " ++
      dumps (Json.obj (jolt_raw_dict false kvs))) ++ "\x7d" = _
    rw [show quoteJson curlySigil = "\"\x7b\x7d\"" from rfl,
      show ("\x7b\"\x7b\x7d\": " : String) = "\x7b" ++ ("\"\x7b\x7d\"" ++ ": ") from rfl]
    simp only [strAppendAssoc]
  · rw [hj]; unfold jolt_dict
    rw [if_neg (by rintro (h | h); exacts [Bool.noConfusion h, hlen h])]

/-- C5 witness: the singleton map `{"one": 1}` from the test suite, and the
two-entry map that stays plain. -/
theorem C5_singleton_map_wrapped_witness :
    (∃ rest, jolt_dumps false (.map [("one", .int 1)]) = "\x7b\"\x7b\x7d\": " ++ rest) ∧
    jolt false (.map [("one", .int 1), ("two", .int 2)]) =
      Json.obj [("one", Json.int 1), ("two", Json.int 2)] := by
  constructor
  · exact ((C5_singleton_map_wrapped [("one", .int 1)]).1 rfl).2
  · have h := (C5_singleton_map_wrapped [("one", .int 1), ("two", .int 2)]).2.1 (by decide)
    rw [h]; rfl

/-- C9 counterexample: a one-entry object with the reserved key `()` is not
rejected; it decodes to the plain one-entry Map. -/
theorem C9_reserved_sigils_counterexample :
    decodeJson (.obj [("()", .int 1)]) = .ok (.map [("()", .int 1)]) := by rfl

/-- C9 (amended): the decoder has no branches for `()`, `->` or `--`; a
one-entry object with such a key falls through the sigil dispatch and is
returned as a plain one-entry Map, whatever its payload. -/
theorem C9_reserved_sigils_plain_map (v : Value) :
    object_hook [("()", v)] = .ok (.map [("()", v)]) ∧
    object_hook [("->", v)] = .ok (.map [("->", v)]) ∧
    object_hook [("--", v)] = .ok (.map [("--", v)]) :=
  ⟨rfl, rfl, rfl⟩

/-- C10: the `G` hook returns Null for a mapping payload and for a sequence
payload (the element-table and subgraph/path branches are both `pass`), and
it raises `JoltDecodeError` only for payloads that are neither maps nor
lists.  The one-entry `G` object routes to the hook unchanged. -/
theorem C10_graph_hook_returns_null (v : Value) :
    object_hook [("G", v)] = graph_hook v ∧
    (∀ kvs, v = .map kvs → graph_hook v = .ok .null) ∧
    (∀ xs, v = .list xs → graph_hook v = .ok .null) ∧
    (∀ e : PyErr, graph_hook v = .error e →
      (∀ kvs, v ≠ .map kvs) ∧ (∀ xs, v ≠ .list xs)) := by
  refine ⟨rfl, ?_, ?_, ?_⟩
  · rintro kvs rfl; rfl
  · rintro xs rfl; rfl
  · intro e herr
    constructor
    · rintro kvs rfl; exact Except.noConfusion herr
    · rintro xs rfl; exact Except.noConfusion herr

/-- C10 witness: a single-element table payload and a subgraph/path array
payload both make `decode` return Null. -/
theorem C10_graph_hook_returns_null_witness :
    graph_hook (.map [("1", .list [.list [.str "Person"], .map [("name", .str "Alice")]])]) =
      .ok .null ∧
    graph_hook (.list [.map [], .map [], .list []]) = .ok .null := by
  constructor
  · exact (C10_graph_hook_returns_null _).2.1 _ rfl
  · exact (C10_graph_hook_returns_null _).2.2.1 _ rfl

/-- C1 (code bug): round-trip fails on graph values.  Encoding the test
suite's node `a` and decoding the result yields Null, not the node: the
graph hook never rebuilds an element. -/
theorem C1_roundtrip_fails_on_node :
    decodeJson (jolt false (.node nodeAlice)) = .ok .null ∧
    Value.null ≠ Value.node nodeAlice :=
  ⟨rfl, fun h => Value.noConfusion h⟩

/-- C6 (code bug): the `{}` wrap of a singleton map whose key is a sigil
does not survive decoding.  The encoder wraps `{"Z": 5}` as
`{"{}": {"Z": 5}}`, but the object hook runs bottom-up: the inner object is
rewritten to the int `5` first, and `dict(5)` then raises `TypeError`. -/
theorem C6_curly_unwrap_fails_on_sigil_key :
    jolt false (.map [("Z", .int 5)]) =
      Json.obj [(curlySigil, Json.obj [("Z", Json.int 5)])] ∧
    decodeJson (Json.obj [(curlySigil, Json.obj [("Z", Json.int 5)])]) =
      .error .typeError ∧
    decodeJson (jolt false (.map [("one", .int 1)])) = .ok (.map [("one", .int 1)]) :=
  ⟨rfl, rfl, rfl⟩

theorem tableUpdate_nil {α : Type} (k : String) (v : α) :
    tableUpdate ([] : List (String × α)) k v = [(k, v)] := by
  simp [tableUpdate]

/-- The `jolt_path` loop computes, from any starting accumulators, the three
spec-side tables: the node fold over the walk, the relationship fold, and
the id sequence. -/
theorem jolt_path_go_spec (rels : List RelV) :
    ∀ (last : NodeV) (nt rt : List (String × Json)) (sq : List Json),
    jolt_path_go false rels last nt rt sq =
      Json.obj [("G", Json.arr [
        Json.obj ((path_walk last rels).foldl
          (fun t n => tableUpdate t (jolt_raw_node_2 false n).1 (jolt_raw_node_2 false n).2) nt),
        Json.obj (rels.foldl
          (fun t r => tableUpdate t (toString r.id) (jolt_rel_entry false r)) rt),
        Json.arr (sq ++ rels.map (fun r => Json.str (toString r.id)))])] := by
  induction rels with
  | nil => intro last nt rt sq; simp [jolt_path_go, path_walk]
  | cons r rest ih =>
    intro last nt rt sq
    obtain ⟨i, t, props, s, e⟩ := r
    obtain ⟨si, sl, sp⟩ := s
    obtain ⟨ei, el, ep⟩ := e
    by_cases heq : NodeV.eqv (NodeV.mk si sl sp) last
    · simp only [jolt_path_go, path_walk, heq, if_true, ih, RelV.id, RelV.startN,
        RelV.endN, jolt_raw_node_2, jolt_rel_entry, NodeV.id, List.foldl_cons,
        List.map_cons, List.append_assoc, List.cons_append, List.nil_append]
    · simp only [jolt_path_go, path_walk, heq, Bool.false_eq_true, if_false, ih,
        RelV.id, RelV.startN, RelV.endN, jolt_raw_node_2, jolt_rel_entry, NodeV.id,
        List.foldl_cons, List.map_cons, List.append_assoc, List.cons_append,
        List.nil_append]

theorem mem_key_tableUpdate {α : Type} (t : List (String × α)) (k k2 : String)
    (v2 : α) (h : ∃ e, (k, e) ∈ t) : ∃ e, (k, e) ∈ tableUpdate t k2 v2 := by
  obtain ⟨e, he⟩ := h
  unfold tableUpdate
  split
  · by_cases hk : k = k2
    · subst hk
      exact ⟨v2, List.mem_map.mpr ⟨(k, e), he, by simp⟩⟩
    · exact ⟨e, List.mem_map.mpr ⟨(k, e), he, by simp [hk]⟩⟩
  · exact ⟨e, List.mem_append_left _ he⟩

theorem mem_key_tableUpdate_self {α : Type} (t : List (String × α)) (k : String)
    (v : α) : ∃ e, (k, e) ∈ tableUpdate t k v := by
  unfold tableUpdate
  split
  · rename_i hany
    rw [List.any_eq_true] at hany
    obtain ⟨kv, hmem, hbeq⟩ := hany
    exact ⟨v, List.mem_map.mpr ⟨kv, hmem, by rw [if_pos hbeq]⟩⟩
  · exact ⟨v, List.mem_append_right _ (List.mem_singleton.mpr rfl)⟩

/-- A fold of `tableUpdate`s contains a key for every folded element, and
keeps every key already present. -/
theorem foldl_tableUpdate_mem {α β : Type} (key : β → String) (ent : β → α) :
    ∀ (l : List β) (t0 : List (String × α)) (x : β),
      x ∈ l ∨ (∃ e, (key x, e) ∈ t0) →
      ∃ e, (key x, e) ∈ l.foldl (fun acc y => tableUpdate acc (key y) (ent y)) t0 := by
  intro l
  induction l with
  | nil =>
    rintro t0 x (h | h)
    · exact absurd h (List.not_mem_nil x)
    · simpa using h
  | cons y rest ih =>
    rintro t0 x (h | h)
    · rw [List.foldl_cons]
      rcases List.mem_cons.mp h with rfl | hmem
      · exact ih _ x (Or.inr (mem_key_tableUpdate_self t0 (key x) (ent x)))
      · exact ih _ x (Or.inl hmem)
    · rw [List.foldl_cons]
      exact ih _ x (Or.inr (mem_key_tableUpdate t0 _ _ _ h))

theorem jolt_raw_node_2_key (safe : Bool) (n : NodeV) :
    (jolt_raw_node_2 safe n).1 = toString n.id := by
  cases n; rfl

/-- C4: encoding a path yields `{"G": [NODES, RELS, SEQ]}` with `SEQ` the
stringified start-node id followed by the relationship ids, `NODES` the
element table over every node encountered on the direction-respecting walk,
and `RELS` the element table of the relationships; every encountered node
id and every relationship id is a key of its table. -/
theorem C4_path_encoding (p : PathV) :
    jolt false (.path p) =
      Json.obj [("G", Json.arr [
        Json.obj (nodes_table p.startN p.relationships),
        Json.obj (rels_table p.relationships),
        Json.arr (seq_list p.startN p.relationships)])] ∧
    (∀ n, n ∈ path_node_seq p.startN p.relationships →
      ∃ entry, (toString n.id, entry) ∈ nodes_table p.startN p.relationships) ∧
    (∀ r, r ∈ p.relationships →
      ∃ entry, (toString r.id, entry) ∈ rels_table p.relationships) := by
  obtain ⟨v0, rels⟩ := p
  refine ⟨?_, ?_, ?_⟩
  · obtain ⟨vi, vl, vp⟩ := v0
    have h0 : jolt false (.path (.mk (.mk vi vl vp) rels)) =
        jolt_path_go false rels (.mk vi vl vp)
          [(toString vi, .arr [.arr (vl.map Json.str), .obj (jolt_raw_dict false vp)])]
          [] [Json.str (toString vi)] := rfl
    rw [h0, jolt_path_go_spec]
    simp only [nodes_table, rels_table, seq_list, path_node_seq, PathV.startN,
      PathV.relationships, NodeV.id, List.foldl_cons, tableUpdate_nil,
      jolt_raw_node_2, List.singleton_append, List.cons_append, List.nil_append]
  · intro n hn
    have h := foldl_tableUpdate_mem (fun m => (jolt_raw_node_2 false m).1)
      (fun m => (jolt_raw_node_2 false m).2)
      (path_node_seq (PathV.startN (.mk v0 rels)) (PathV.relationships (.mk v0 rels)))
      [] n (Or.inl hn)
    simp only [jolt_raw_node_2_key] at h
    simp only [nodes_table, jolt_raw_node_2_key]
    exact h
  · intro r hr
    exact foldl_tableUpdate_mem (fun q => toString q.id) (fun q => jolt_rel_entry false q)
      (PathV.relationships (.mk v0 rels)) [] r (Or.inl hr)

/-- C4 witness: in the test fixture's path, node `2` (reached through
relationship `ab`) and relationship `8` (traversed against its direction)
are keys of their tables. -/
theorem C4_path_encoding_witness :
    (∃ entry, ("2", entry) ∈ nodes_table nodeAlice [relAB, relCB, relCD]) ∧
    (∃ entry, ("8", entry) ∈ rels_table [relAB, relCB, relCD]) := by
  constructor
  · exact (C4_path_encoding pathFixture).2.1 nodeBob (List.Mem.tail _ (List.Mem.head _))
  · exact (C4_path_encoding pathFixture).2.2 relCB (List.Mem.tail _ (List.Mem.head _))

theorem hex_char_facts (c : Char) (h : isHexDigitCh c = true) :
    isPySpace c = false ∧ c ≠ '+' ∧ c ≠ '-' ∧ c ≠ '_' ∧ c ≠ 'x' ∧ c ≠ 'X' ∧
      hexVal c < 16 := by
  have hn : (48 ≤ c.toNat ∧ c.toNat ≤ 57 ∨ 97 ≤ c.toNat ∧ c.toNat ≤ 102) ∨
      65 ≤ c.toNat ∧ c.toNat ≤ 70 := by
    simpa [isHexDigitCh, isAsciiDigit] using h
  refine ⟨?_, ?_, ?_, ?_, ?_, ?_, ?_⟩
  · simp only [isPySpace, Bool.or_eq_false_iff, decide_eq_false_iff_not]
    omega
  · rintro rfl; exact absurd h (by decide)
  · rintro rfl; exact absurd h (by decide)
  · rintro rfl; exact absurd h (by decide)
  · rintro rfl; exact absurd h (by decide)
  · rintro rfl; exact absurd h (by decide)
  · unfold hexVal
    split
    · rename_i hd
      simp only [isAsciiDigit, Bool.and_eq_true, decide_eq_true_eq] at hd
      omega
    · split <;> rename_i hd1 hd2
      · simp only [Bool.and_eq_true, decide_eq_true_eq] at hd2
        omega
      · simp only [isAsciiDigit, Bool.and_eq_true, decide_eq_true_eq, not_and,
          not_le] at hd1 hd2
        omega

theorem stripPySpace_pair (a b : Char) (ha : isPySpace a = false)
    (hb : isPySpace b = false) : stripPySpace [a, b] = [a, b] := by
  simp [stripPySpace, List.dropWhile_cons, ha, hb]

theorem stripPySpace_single (a : Char) (ha : isPySpace a = false) :
    stripPySpace [a] = [a] := by
  simp [stripPySpace, List.dropWhile_cons, ha]

theorem pyIntLit16_hex_pair (a b : Char) (ha : isHexDigitCh a = true)
    (hb : isHexDigitCh b = true) :
    pyIntLit16 [a, b] = some ((hexVal a * 16 + hexVal b : Nat) : Int) := by
  obtain ⟨hsa, hpa, hma, hua, hxa, hXa, -⟩ := hex_char_facts a ha
  obtain ⟨hsb, hpb, hmb, hub, hxb, hXb, -⟩ := hex_char_facts b hb
  simp [pyIntLit16, stripPySpace_pair a b hsa hsb, pyHexDigits, digitRun,
    digitRunGo, ha, hb, hpa, hma, hua, hub, hxb, hXb]

theorem pyIntLit16_hex_single (a : Char) (ha : isHexDigitCh a = true) :
    pyIntLit16 [a] = some ((hexVal a : Nat) : Int) := by
  obtain ⟨hsa, hpa, hma, hua, hxa, hXa, -⟩ := hex_char_facts a ha
  simp [pyIntLit16, stripPySpace_single a hsa, pyHexDigits, digitRun,
    digitRunGo, ha, hpa, hma]

/-- On an all-hex payload every slice parses, to the claim's octet list. -/
theorem slices_of_hex (cs : List Char) (h : cs.all isHexDigitCh = true) :
    (sliceChunks cs).mapM pyIntLit16 =
      some ((hexPairBytes cs).map (fun n : Nat => (n : Int))) :=
  match cs with
  | [] => by rfl
  | [c] => by
    have hc : isHexDigitCh c = true := by simpa using h
    show List.mapM pyIntLit16 [[c]] = _
    rw [List.mapM_cons, pyIntLit16_hex_single c hc]
    rfl
  | a :: b :: rest => by
    rw [List.all_cons, Bool.and_eq_true] at h
    obtain ⟨ha, h⟩ := h
    rw [List.all_cons, Bool.and_eq_true] at h
    obtain ⟨hb, hrest⟩ := h
    have hrec := slices_of_hex rest hrest
    show List.mapM pyIntLit16 ([a, b] :: sliceChunks rest) = _
    rw [List.mapM_cons, pyIntLit16_hex_pair a b ha hb, hrec]
    rfl

theorem hexPairBytes_lt_256 (cs : List Char) (h : cs.all isHexDigitCh = true) :
    ∀ n ∈ hexPairBytes cs, n < 256 :=
  match cs with
  | [] => by intro n hn; exact absurd hn (List.not_mem_nil n)
  | [c] => by
    have hc : isHexDigitCh c = true := by simpa using h
    intro n hn
    have := (hex_char_facts c hc).2.2.2.2.2.2
    simp [hexPairBytes] at hn
    omega
  | a :: b :: rest => by
    rw [List.all_cons, Bool.and_eq_true] at h
    obtain ⟨ha, h⟩ := h
    rw [List.all_cons, Bool.and_eq_true] at h
    obtain ⟨hb, hrest⟩ := h
    intro n hn
    have h16a := (hex_char_facts a ha).2.2.2.2.2.2
    have h16b := (hex_char_facts b hb).2.2.2.2.2.2
    rcases List.mem_cons.mp hn with rfl | hmem
    · omega
    · exact hexPairBytes_lt_256 rest hrest n hmem

theorem mapM_option_none {α β : Type} (f : α → Option β) :
    ∀ (l : List α), (∃ x ∈ l, f x = none) → l.mapM f = none := by
  intro l
  induction l with
  | nil => rintro ⟨x, hx, -⟩; exact absurd hx (List.not_mem_nil x)
  | cons a rest ih =>
    rintro ⟨x, hx, hfx⟩
    rw [List.mapM_cons]
    rcases List.mem_cons.mp hx with rfl | hmem
    · rw [hfx]; rfl
    · cases hfa : f a with
      | none => rfl
      | some v => rw [ih ⟨x, hmem, hfx⟩]; rfl

/-- C7 counterexample: an odd-length hex payload does not fail (the lone
final digit becomes its own octet), and neither does a payload containing
the non-hex character `+` (Python's `int(·, 16)` accepts a sign). -/
theorem C7_hash_counterexample :
    decodeJson (.obj [("#", .str "0F1")]) = .ok (.bytes [15, 1]) ∧
    decodeJson (.obj [("#", .str "+F")]) = .ok (.bytes [15]) :=
  ⟨rfl, rfl⟩

/-- C7 (amended): the `#` payload is cut into 2-character slices (a final
lone character when the length is odd); a payload of hex digits of either
case decodes to the Bytes whose octets are the slice values — consecutive
hex pairs, plus the lone digit's own value when the length is odd; if some
slice is not accepted by Python's `int(·, 16)`, decoding fails with
`ValueError`. -/
theorem C7_hash_decodes_slices (s : String) :
    (s.data.all isHexDigitCh = true →
      object_hook [("#", Value.str s)] = .ok (.bytes (hexPairBytes s.data))) ∧
    ((∃ chunk ∈ sliceChunks s.data, pyIntLit16 chunk = none) →
      object_hook [("#", Value.str s)] = .error .valueError) := by
  constructor
  · intro h
    show hash_hook (.str s) = _
    have hall : ((hexPairBytes s.data).map (fun n : Nat => (n : Int))).all
        (fun n => decide (0 ≤ n ∧ n < 256)) = true := by
      rw [List.all_eq_true]
      intro x hx
      rw [List.mem_map] at hx
      obtain ⟨m, hm, rfl⟩ := hx
      have := hexPairBytes_lt_256 s.data h m hm
      simp only [decide_eq_true_eq]
      omega
    simp only [hash_hook, slices_of_hex s.data h, hall, if_true]
    simp only [List.map_map]
    have hid : (Int.toNat ∘ fun n : Nat => (n : Int)) = id := by
      funext n; simp
    rw [hid, List.map_id]
  · rintro ⟨chunk, hmem, hnone⟩
    show hash_hook (.str s) = _
    simp only [hash_hook, mapM_option_none pyIntLit16 (sliceChunks s.data)
      ⟨chunk, hmem, hnone⟩]

/-- C7 witness: the test suite's payload `0F1011` decodes to the three
octets 15, 16, 17. -/
theorem C7_hash_decodes_slices_witness :
    object_hook [("#", Value.str "0F1011")] = .ok (.bytes [15, 16, 17]) := by
  have h := (C7_hash_decodes_slices "0F1011").1 (by decide)
  rw [h]; rfl

/-- C8 (code bug): the `@` sigil's error paths raise the wrong exceptions.
`{"@abc": 1}` raises a plain `ValueError` (from `int("abc")`, which
`except TypeError` does not catch) and `{"@4326": [1, 2]}` raises
`AttributeError` (a list has no `.items`, and `except (IndexError,
KeyError)` does not catch it); neither is the `JoltDecodeError` the claim
requires.  The well-formed point payload decodes fine. -/
theorem C8_at_sigil_error_paths :
    decodeJson (.obj [("@abc", .int 1)]) = .error .valueError ∧
    decodeJson (.obj [("@4326", .arr [.int 1, .int 2])]) = .error .attributeError ∧
    decodeJson (.obj [("@4326", .obj [("POINT",
        .arr [.float (.finite (mkRat 617 50)), .float (.finite (mkRat 2839 50))])])]) =
      .ok (.point 4326 [.finite (mkRat 617 50), .finite (mkRat 2839 50)]) ∧
    PyErr.valueError ≠ PyErr.joltDecodeError ∧
    PyErr.attributeError ≠ PyErr.joltDecodeError :=
  ⟨rfl, rfl, rfl, by decide, by decide⟩

end Jolt
